import Mathlib

/-!
Verification of the swarm multi-agent orchestration backend.

Each definition below is a shallow embedding of a function or data type of
the Python sources under `backend/`.  Python floats are modelled as rationals,
timestamps as natural-number seconds, and dictionaries as association lists
or explicit structures.  Nondeterministic inputs (LLM responses, clock reads)
are passed in as explicit parameters.
-/

namespace Swarm

/-- The Python builtin `min` on two floats (first argument on ties), written
with a kernel-reducible comparison. -/
def pyMin (a b : ℚ) : ℚ :=
  if b < a then b else a

/-- The Python builtin `max` on two floats (first argument on ties), written
with a kernel-reducible comparison. -/
def pyMax (a b : ℚ) : ℚ :=
  if a < b then b else a

/-! ## Supervisor score extraction (backend/agents/supervisor.py) -/

/--
Embedding of `SupervisorAgent._extract_score`.  The regex scan over the
critique text is modelled by its outcome: `none` when no score pattern
matches, `some x` when the first matching pattern captured the number `x`
(the patterns capture decimal literals, hence nonnegative values).
-/
def extractScore (matched : Option ℚ) : ℚ :=
  match matched with
  | none => 7
  | some x =>
    let score := if x > 10 then x / 10 else x
    pyMin 10 (pyMax 0 score)

/-! ## Query expander (backend/core/query_expander.py) -/

/-- Result record of `QueryExpander.expand` (class `QueryExpansion`). -/
structure QueryExpansion where
  original : String
  execution_mode : String
  expanded_queries : List String := []
  clarifying_questions : List String := []
  intent_hypotheses : List String := []
  sub_queries : List String := []
  requires_debate : Bool := false
  suggested_agents : List String := []
  deriving Repr, DecidableEq

/-- Parsed fields of the LLM expansion JSON used by `QueryExpander.expand`
(the result of `_llm_expand`, whose fallbacks guarantee these keys). -/
structure LlmExpansion where
  clarifications : List String
  intents : List String
  sub_queries : List String
  complexity : ℚ
  deriving Repr, DecidableEq

/-- Threshold `QueryExpander.DECOMPOSITION_THRESHOLD = 0.4`. -/
def DECOMPOSITION_THRESHOLD : ℚ := 4 / 10

/-- Embedding of `QueryExpander._suggest_agents` keyword matching for one
sub-query, modelled by the boolean outcomes of the substring tests. -/
def suggestAgentForSubquery (hasResearchWord hasCodeWord hasAnalyzeWord : Bool) : String :=
  if hasResearchWord then "researcher"
  else if hasCodeWord then "coder"
  else if hasAnalyzeWord then "analyst"
  else "analyst"

/--
Embedding of `QueryExpander.expand` on the non-exceptional path.  The value
returned by `_assess_complexity` is the parameter `complexity`; the JSON
returned by `_llm_expand` is the parameter `expansion`; the list returned by
`_suggest_agents` is the parameter `suggested` (it does not affect the mode,
queries or debate flag).
-/
def expand (query : String) (complexity : ℚ) (expansion : LlmExpansion)
    (suggested : List String) : QueryExpansion :=
  if complexity < DECOMPOSITION_THRESHOLD then
    { original := query
      execution_mode := "direct"
      expanded_queries := [query]
      requires_debate := false }
  else
    { original := query
      execution_mode := "decompose"
      clarifying_questions := expansion.clarifications
      intent_hypotheses := expansion.intents
      sub_queries := expansion.sub_queries
      requires_debate := expansion.complexity > 7 / 10
      suggested_agents := suggested }

/-! ## Memory manager write (backend/memory/manager.py) -/

/-- Scope field of a memory entry (backend/models/memory.py `MemoryScope`). -/
inductive MemoryScope where
  | globalScope
  | task
  | agent
  deriving Repr, DecidableEq

/-- The fields of `MemoryEntry` used by `MemoryManager.write`. -/
structure MemoryEntry where
  id : String
  scope : MemoryScope
  namespaceField : String
  content : String
  embedding : Option (List ℚ) := none
  ttl_seconds : Option ℕ := none
  deriving Repr, DecidableEq

/-- Configuration and failure behaviour of the three tiers during one call of
`MemoryManager.write`: which stores are configured (`none` in the Python
constructor) and whether each attempted operation raises. -/
structure WriteEnv where
  redisConfigured : Bool
  qdrantConfigured : Bool
  postgresConfigured : Bool
  redisSetFails : Bool
  qdrantUpsertFails : Bool
  postgresSaveFails : Bool
  publishFails : Bool
  deriving Repr, DecidableEq

/-- Observable outcome of one `MemoryManager.write` call: the value or
exception surfaced to the caller, and which tier operations completed. -/
structure WriteOutcome where
  result : Except String String
  redisWritten : Bool
  qdrantWritten : Bool
  postgresWritten : Bool
  published : Bool
  deriving Repr

/--
Embedding of `MemoryManager.write`.  Every tier operation is wrapped in
`try ... except: pass` in the source, so a failing tier never escapes; the
method unconditionally ends with `return entry.id`.  An `Except.error` result
would model an exception propagating to the caller; no branch produces one.
Python truthiness: a TTL of `0` and an empty embedding list are falsy, so
those tiers are skipped for such entries.
-/
def memoryWrite (env : WriteEnv) (entry : MemoryEntry) : WriteOutcome :=
  -- Working memory (Redis): attempted iff the entry has a truthy TTL and
  -- redis is configured; any exception is swallowed.
  let redisAttempted := (match entry.ttl_seconds with
    | some t => t ≠ 0
    | none => false : Bool) && env.redisConfigured
  -- Semantic memory (Qdrant): attempted iff the entry has a truthy embedding
  -- and qdrant is configured; any exception is swallowed.
  let qdrantAttempted := (match entry.embedding with
    | some v => !v.isEmpty
    | none => false : Bool) && env.qdrantConfigured
  -- Persistent history (Postgres): attempted iff configured; swallowed.
  let postgresAttempted := env.postgresConfigured
  -- Publish update: attempted iff redis is configured; swallowed.
  let publishAttempted := env.redisConfigured
  { result := Except.ok entry.id
    redisWritten := redisAttempted && !env.redisSetFails
    qdrantWritten := qdrantAttempted && !env.qdrantUpsertFails
    postgresWritten := postgresAttempted && !env.postgresSaveFails
    published := publishAttempted && !env.publishFails }

/-- Durable-tier write succeeded during `MemoryManager.write`: postgres is
configured and `postgres.save` did not raise. -/
def durableWriteSucceeded (env : WriteEnv) : Bool :=
  env.postgresConfigured && !env.postgresSaveFails

/-! ## Circuit breaker (backend/llm/circuit_breaker.py) -/

/-- The three breaker states of `CircuitBreaker.state`. -/
inductive CBState where
  | closed
  | open
  | half_open
  deriving Repr, DecidableEq

/-- Embedding of class `CircuitBreaker`.  Wall-clock instants
(`datetime.utcnow()`) are modelled as natural-number seconds. -/
structure CircuitBreaker where
  failure_threshold : ℕ := 5
  recovery_timeout : ℕ := 60
  half_open_max_calls : ℕ := 3
  failure_count : ℕ := 0
  last_failure_time : Option ℕ := none
  state : CBState := CBState.closed
  half_open_calls : ℕ := 0
  deriving Repr, DecidableEq

/--
Embedding of `CircuitBreaker.allow_request`.  The parameter `now` is the
value of `datetime.utcnow()` read inside the method.  Returns the boolean
result together with the possibly mutated breaker.
-/
def allowRequest (cb : CircuitBreaker) (now : ℕ) : Bool × CircuitBreaker :=
  match cb.state with
  | CBState.closed => (true, cb)
  | CBState.open =>
    match cb.last_failure_time with
    | some t =>
      if now - t ≥ cb.recovery_timeout then
        (true, { cb with state := CBState.half_open, half_open_calls := 0 })
      else (false, cb)
    | none => (false, cb)
  | CBState.half_open =>
    if cb.half_open_calls < cb.half_open_max_calls then (true, cb)
    else (false, cb)

/-- Embedding of `CircuitBreaker.record_success`. -/
def recordSuccess (cb : CircuitBreaker) : CircuitBreaker :=
  match cb.state with
  | CBState.half_open =>
    { cb with state := CBState.closed, failure_count := 0, half_open_calls := 0 }
  | CBState.closed => { cb with failure_count := 0 }
  | CBState.open => cb

/-- Embedding of `CircuitBreaker.record_failure`; `now` is the
`datetime.utcnow()` stamp taken inside the method. -/
def recordFailure (cb : CircuitBreaker) (now : ℕ) : CircuitBreaker :=
  let cb := { cb with failure_count := cb.failure_count + 1,
                      last_failure_time := some now }
  match cb.state with
  | CBState.half_open => { cb with state := CBState.open, half_open_calls := 0 }
  | CBState.closed =>
    if cb.failure_count ≥ cb.failure_threshold then { cb with state := CBState.open }
    else cb
  | CBState.open => cb

/-- Iterate `allow_request` at a fixed instant, collecting the results; used
to examine consecutive trial requests in the half-open state. -/
def allowRequestRun (cb : CircuitBreaker) (now : ℕ) : ℕ → List Bool × CircuitBreaker
  | 0 => ([], cb)
  | n + 1 =>
    let step := allowRequest cb now
    let rest := allowRequestRun step.2 now n
    (step.1 :: rest.1, rest.2)

/-- Iterate `record_failure` at a fixed instant. -/
def recordFailures (cb : CircuitBreaker) (now : ℕ) : ℕ → CircuitBreaker
  | 0 => cb
  | n + 1 => recordFailures (recordFailure cb now) now n

/-! ## Debate engine (backend/debate/engine.py, backend/debate/scoring.py) -/

/-- One entry of `DebateState.proposals` as built by
`DebateEngine._collect_proposals`. -/
structure Proposal where
  agent_id : String
  content : String
  confidence : ℚ
  evidence : List String
  roundNum : ℕ
  deriving Repr, DecidableEq

/-- One entry of `DebateState.critiques` as built by
`DebateEngine._collect_critiques`. -/
structure Critique where
  critic_id : String
  target_proposal_id : String
  score : ℚ
  roundNum : ℕ
  deriving Repr, DecidableEq

/-- The debate-state fields consumed by voting and scoring. -/
structure DebateState where
  roundNum : ℕ
  proposals : List Proposal
  critiques : List Critique
  votes : List (String × String)
  deriving Repr, DecidableEq

/-- Default scoring weights of `DebateConfig.weights`. -/
structure DebateWeights where
  votes : ℚ := 35 / 100
  critiques : ℚ := 35 / 100
  confidence : ℚ := 15 / 100
  evidence : ℚ := 15 / 100
  deriving Repr, DecidableEq

/-- Configuration record `DebateConfig` (backend/debate/scoring.py). -/
structure DebateConfig where
  max_rounds : ℕ := 5
  convergence_threshold : ℚ := 8 / 10
  score_margin_threshold : ℚ := 3 / 10
  weights : DebateWeights := {}
  deriving Repr, DecidableEq

/-- Python dict assignment `m[k] = v`: overwrite the value at an existing key
or append a new binding. -/
def dictInsert {β : Type} (m : List (String × β)) (k : String) (v : β) :
    List (String × β) :=
  if m.any (fun p => p.1 == k) then
    m.map (fun p => if p.1 == k then (k, v) else p)
  else m ++ [(k, v)]

/-- The current-round proposals filter used by every phase of the engine. -/
def currentProposals (state : DebateState) : List Proposal :=
  state.proposals.filter (fun p => p.roundNum == state.roundNum)

/-- Embedding of `BaseAgent.vote` result extraction: the base implementation
selects `proposals[0].get("agent_id", "")` when the offered list is nonempty,
else the empty string.  No agent subclass overrides `vote`. -/
def voteSelect (proposals : List Proposal) : String :=
  match proposals with
  | [] => ""
  | p :: _ => p.agent_id

/--
Embedding of `DebateEngine._conduct_voting`: each agent is offered the
current-round proposals of the other agents; when that list is nonempty the
agent's selection is recorded in the fresh `votes` dict.
-/
def conductVoting (agents : List String) (state : DebateState) :
    List (String × String) :=
  let current := currentProposals state
  agents.foldl
    (fun votes aid =>
      let other_proposals := current.filter (fun p => p.agent_id != aid)
      if other_proposals.isEmpty then votes
      else dictInsert votes aid (voteSelect other_proposals))
    []

/-- One step of `DebateScorer.count_votes`:
`counts[pid] = counts.get(pid, 0) + 1`. -/
def bumpCount (counts : List (String × ℕ)) (pid : String) : List (String × ℕ) :=
  if counts.any (fun p => p.1 == pid) then
    counts.map (fun p => if p.1 == pid then (p.1, p.2 + 1) else p)
  else counts ++ [(pid, 1)]

/-- Embedding of `DebateScorer.count_votes`: fold over `votes.values()`. -/
def countVotes (votes : List (String × String)) : List (String × ℕ) :=
  votes.foldl (fun counts v => bumpCount counts v.2) []

/-- Python `counts.get(pid, 0)` on the counts dict. -/
def lookupCount (counts : List (String × ℕ)) (pid : String) : ℕ :=
  match counts.find? (fun p => p.1 == pid) with
  | some p => p.2
  | none => 0

/--
Embedding of `DebateScorer.calculate_weighted_score`: the weighted sum of the
vote share, the normalized average critique, the confidence, and the capped
evidence ratio, clipped into the unit interval.
-/
def calculateWeightedScore (vote_count : ℕ) (critique_avg confidence : ℚ)
    (evidence_count : ℕ) (weights : DebateWeights) (total_agents : ℕ) : ℚ :=
  let score :=
    weights.votes * ((vote_count : ℚ) / (total_agents : ℚ))
    + weights.critiques * (critique_avg / 10)
    + weights.confidence * confidence
    + weights.evidence * pyMin ((evidence_count : ℚ) / 5) 1
  pyMin (pyMax score 0) 1

/-- The critiques aimed at proposal `pid` in the current round
(`DebateEngine._calculate_scores`). -/
def critiquesFor (state : DebateState) (pid : String) : List Critique :=
  state.critiques.filter
    (fun c => c.target_proposal_id == pid && c.roundNum == state.roundNum)

/-- Average critique score with the 5.0 default for an empty critique list
(`DebateEngine._calculate_scores`). -/
def avgCritique (state : DebateState) (pid : String) : ℚ :=
  let critiques := critiquesFor state pid
  if critiques.isEmpty then 5
  else ((critiques.map (fun c => c.score)).sum) / (critiques.length : ℚ)

/--
Embedding of `DebateEngine._calculate_scores`: for every current-round
proposal, gather vote count, average critique, confidence and evidence count,
and store the weighted score in the `scores` dict keyed by the proposal's
agent id.  `agents` is `self.agents` (ids); the config carries the weights.
-/
def calculateScores (config : DebateConfig) (agents : List String)
    (state : DebateState) : List (String × ℚ) :=
  let current := currentProposals state
  let vote_counts := countVotes state.votes
  current.foldl
    (fun scores pr =>
      let pid := pr.agent_id
      let vote_count := lookupCount vote_counts pid
      let critique_avg := avgCritique state pid
      let confidence := pr.confidence
      let evidence_count := pr.evidence.length
      dictInsert scores pid
        (calculateWeightedScore vote_count critique_avg confidence
          evidence_count config.weights agents.length))
    []

/-- Score formula as the specification states it, with the literal default
weights, written for comparison against `calculateScores`. -/
def specClippedScore (state : DebateState) (totalAgents : ℕ) (pr : Proposal) : ℚ :=
  let votesFor := (state.votes.map (fun v => v.2)).count pr.agent_id
  let raw :=
    (35 : ℚ) / 100 * ((votesFor : ℚ) / (totalAgents : ℚ))
    + 35 / 100 * (avgCritique state pr.agent_id / 10)
    + 15 / 100 * pr.confidence
    + 15 / 100 * min ((pr.evidence.length : ℚ) / 5) 1
  min (max raw 0) 1

/-! ## Supervisor rework decision (backend/agents/supervisor.py,
backend/prompts/prompts.py) -/

/-- The fields of the structured evaluation dict consumed by
`ReworkDecision.from_evaluation`; absent keys are `none` or the listed
defaults, matching the `.get` calls in the source. -/
structure Evaluation where
  overall_score : Option ℚ := none
  rework_required : Bool := false
  critical : ℕ := 0
  major : ℕ := 0
  priority_fixes : List String := []
  verdict : String := ""
  deriving Repr, DecidableEq

/-- Dataclass `ReworkDecision` (backend/prompts/prompts.py). -/
structure ReworkDecision where
  action : String
  reason : String
  focus_areas : List String
  score : ℚ := 0
  deriving Repr, DecidableEq

/--
Embedding of `ReworkDecision.from_evaluation`: REJECT on critical issues or a
REJECT verdict; else REWORK when the rework flag is set, the score is below
the threshold, or the verdict signals rework; else ACCEPT.
-/
def ReworkDecision.from_evaluation (evaluation : Evaluation) (threshold : ℚ) :
    ReworkDecision :=
  let score := evaluation.overall_score.getD 0
  let rework_required := evaluation.rework_required
  let critical := evaluation.critical
  let priority_fixes := evaluation.priority_fixes
  let verdict := evaluation.verdict
  if critical > 0 ∨ verdict = "REJECT" then
    { action := "REJECT"
      reason := s!"Critical issues detected: {critical}. Verdict: {verdict}"
      focus_areas :=
        if !priority_fixes.isEmpty then priority_fixes.take 3
        else ["Address critical issues"]
      score := score }
  else if rework_required ∨ score < threshold ∨ verdict = "NEEDS_REWORK"
      ∨ verdict = "NEEDS_MINOR_IMPROVEMENT" then
    { action := "REWORK"
      reason := "Score below threshold or rework required"
      focus_areas :=
        if !priority_fixes.isEmpty then priority_fixes.take 3
        else ["Improve specificity and depth"]
      score := score }
  else
    { action := "ACCEPT"
      reason := "Quality acceptable"
      focus_areas := []
      score := score }

/-- Class attribute `SupervisorAgent.quality_threshold`. -/
def quality_threshold : ℚ := 7

/-- Class attribute `SupervisorAgent.max_rework_attempts`. -/
def max_rework_attempts : ℕ := 2

/--
Embedding of the decision-and-counting part of
`SupervisorAgent.critique_agent_work` (lines 78-94): `score` is
`evaluation.get("overall_score", self._extract_score(critique_text))`, whose
regex fallback is the parameter `fallbackScore`; the rework counter map
`self._rework_counts` is the function `reworkCounts` (0 for absent keys).
Returns the final decision together with the updated counter map.
-/
def critiqueAgentWork (reworkCounts : String → ℕ) (agentId : String)
    (evaluation : Evaluation) (fallbackScore : ℚ) :
    ReworkDecision × (String → ℕ) :=
  let score := evaluation.overall_score.getD fallbackScore
  let rework_decision := ReworkDecision.from_evaluation evaluation quality_threshold
  if rework_decision.action = "REWORK" then
    let newCount := reworkCounts agentId + 1
    let counts := fun x => if x = agentId then newCount else reworkCounts x
    if newCount > max_rework_attempts then
      ({ action := "ACCEPT"
         reason := "Max rework attempts exceeded. Accepting with current quality."
         focus_areas := []
         score := score }, counts)
    else (rework_decision, counts)
  else (rework_decision, reworkCounts)

/-! ## Delegator (backend/core/delegator.py) -/

/-- One entry of the analysis `agent_config` list; `.get` defaults are
applied at the use sites. -/
structure AgentConfig where
  role : Option String := none
  capability : Option String := none
  deriving Repr, DecidableEq

/-- Pydantic model `AgentPlan`. -/
structure AgentPlan where
  agent_type : String
  agent_name : String
  description : String
  subtask_description : String
  provider : String
  priority : ℕ := 0
  capability : String := "analysis"
  deriving Repr, DecidableEq

/-- The analysis-dict fields consumed by `_plan_agents` and
`_determine_strategy`, with the defaults of the corresponding `.get` calls. -/
structure TaskAnalysis where
  task_interpretation : String := ""
  main_tasks : List String := []
  agent_count : ℤ := 4
  agent_config : List AgentConfig := []
  agent_types : List String := []
  requires_debate : Bool := false
  complexity : ℚ := 1 / 2
  deriving Repr, DecidableEq

/-- Python substring test `sub in s`. -/
def pyContains (s sub : String) : Bool :=
  sub == "" || (s.splitOn sub).length != 1

/-- Capability standardization in the dynamic branch of `_plan_agents`. -/
def standardizeCapability (capability : String) : String :=
  let c := capability.toLower
  if pyContains c "research" then "research"
  else if pyContains c "code" || pyContains c "coding" then "coding"
  else if pyContains c "review" then "review"
  else "analysis"

/-- The provider rotation of `Delegator._select_provider_for_agent`. -/
def cloudProviders : List String := ["google", "anthropic", "openai"]

/-- Embedding of `Delegator._select_provider_for_agent`: round-robin over the
provider list by agent index (the agent type is unused). -/
def selectProviderForAgent (_agent_type : String) (index : ℕ) : String :=
  cloudProviders.getD (index % cloudProviders.length) "google"

/-- The dynamic-branch plan construction of `_plan_agents`
(`for i, config in enumerate(agent_config)`), carrying the running index. -/
def plansFromConfigs (provider : String) : ℕ → List AgentConfig → List AgentPlan
  | _, [] => []
  | i, config :: rest =>
    let role := config.role.getD ("Agent-" ++ toString (i + 1))
    let capability := standardizeCapability (config.capability.getD "ANALYSIS")
    let agent_provider :=
      if provider = "auto" then selectProviderForAgent role i else provider
    { agent_type := role
      agent_name := role
      description := s!"Acts as {role} with {capability} capabilities"
      subtask_description := ""
      provider := agent_provider
      priority := i
      capability := capability } :: plansFromConfigs provider (i + 1) rest

/-- The standard padding roles of `_plan_agents`. -/
def defaultRoles : List String := ["researcher", "analyst", "coder", "reviewer", "synthesizer"]

/-- The `capability_defaults` dict of the padding loop, with its
`.get(default, "analysis")` fallback. -/
def capabilityDefaults (d : String) : String :=
  if d = "researcher" then "research"
  else if d = "analyst" then "analysis"
  else if d = "coder" then "coding"
  else if d = "reviewer" then "review"
  else if d = "synthesizer" then "analysis"
  else "analysis"

/-- The padding loop body of `_plan_agents`, carrying the running index `j`. -/
def padList (provider : String) : ℕ → List String → List AgentPlan
  | _, [] => []
  | j, d :: rest =>
    let agent_provider :=
      if provider ≠ "auto" then provider else selectProviderForAgent d j
    { agent_type := d
      agent_name := d.capitalize
      description := s!"Handles {d} duties"
      subtask_description := ""
      provider := agent_provider
      priority := j
      capability := capabilityDefaults d } :: padList provider (j + 1) rest

/--
Embedding of the `min_agents` padding of `_plan_agents`: while fewer than 4
plans exist, append standard-role plans (the `break` bound means exactly
`4 - len(plans)` of the five defaults are consumed), indices continuing from
`len(plans)`.
-/
def padPlans (provider : String) (plans : List AgentPlan) : List AgentPlan :=
  let min_agents := 4
  plans ++ padList provider plans.length (defaultRoles.take (min_agents - plans.length))

/-- The subtask back-assignment loop of the dynamic branch:
`plan.subtask_description = subtasks[i] if i < len(subtasks) else description`. -/
def assignSubtasks (description : String) (subtasks : List String) :
    ℕ → List AgentPlan → List AgentPlan
  | _, [] => []
  | i, p :: rest =>
    { p with subtask_description := subtasks.getD i description }
      :: assignSubtasks description subtasks (i + 1) rest

/-- The dynamic branch of `_plan_agents` (nonempty `agent_config`); the
result of `_decompose_task` is the parameter `subtasks`. -/
def planAgentsDynamic (description provider : String) (configs : List AgentConfig)
    (subtasks : List String) : List AgentPlan :=
  assignSubtasks description subtasks 0
    (padPlans provider (plansFromConfigs provider 0 configs))

/-- The legacy clamp `agent_count = max(4, min(agent_count, 15))`. -/
def clampAgentCount (n : ℤ) : ℕ :=
  (max 4 (min n 15)).toNat

/-- The legacy seed list of agent types when the analysis supplies none. -/
def initialAgentTypes (analysis : TaskAnalysis) (agent_count : ℕ) : List String :=
  if !analysis.agent_types.isEmpty then analysis.agent_types
  else
    ["researcher", "analyst"]
      ++ (if agent_count > 2 then ["reviewer", "synthesizer"].take (agent_count - 2) else [])

/-- The `for default in defaults: ... else append "researcher"` selection of
the legacy fill loop. -/
def nextDefault (types : List String) : String :=
  (defaultRoles.find? (fun d => !types.contains d)).getD "researcher"

/-- Countdown form of the legacy `while len(agent_types) < agent_count` loop:
each iteration appends exactly one type, so the loop runs
`agent_count - len(agent_types)` times. -/
def fillTypesGo : ℕ → List String → List String
  | 0, types => types
  | n + 1, types => fillTypesGo n (types ++ [nextDefault types])

/-- The legacy fill loop of `_plan_agents`. -/
def fillTypes (types : List String) (target : ℕ) : List String :=
  fillTypesGo (target - types.length) types

/-- The `agent_info` name table of the legacy branch. -/
def agentInfoName (t : String) : String :=
  if t = "researcher" then "Researcher"
  else if t = "analyst" then "Analyst"
  else if t = "coder" then "Coder"
  else if t = "reviewer" then "Reviewer"
  else if t = "synthesizer" then "Synthesizer"
  else t.capitalize

/-- The `agent_info` description table of the legacy branch. -/
def agentInfoDescription (t : String) : String :=
  if t = "researcher" then "Conducts web research and information gathering using search tools"
  else if t = "analyst" then "Analyzes data and creates plans"
  else if t = "coder" then "Generates and reviews code"
  else if t = "reviewer" then "Reviews and critiques solutions"
  else if t = "synthesizer" then "Synthesizes multiple perspectives into final output"
  else s!"Handles {t} tasks"

/-- The `agent_info` capability table of the legacy branch. -/
def agentInfoCapability (t : String) : String :=
  if t = "researcher" then "research"
  else if t = "analyst" then "analysis"
  else if t = "coder" then "coding"
  else if t = "reviewer" then "review"
  else if t = "synthesizer" then "analysis"
  else "analysis"

/-- The legacy plan-construction loop
(`for i, agent_type in enumerate(agent_types[:agent_count])`). -/
def plansFromTypes (description provider : String) (subtasks : List String) :
    ℕ → List String → List AgentPlan
  | _, [] => []
  | i, t :: rest =>
    { agent_type := t
      agent_name := agentInfoName t
      description := agentInfoDescription t
      subtask_description := subtasks.getD i description
      provider := if provider = "auto" then selectProviderForAgent t i else provider
      priority := i
      capability := agentInfoCapability t }
      :: plansFromTypes description provider subtasks (i + 1) rest

/-- The legacy branch of `_plan_agents` (missing or empty `agent_config`). -/
def planAgentsLegacy (description : String) (analysis : TaskAnalysis)
    (provider : String) (subtasks : List String) : List AgentPlan :=
  let agent_count := clampAgentCount analysis.agent_count
  let agent_types :=
    (fillTypes (initialAgentTypes analysis agent_count) agent_count).take agent_count
  plansFromTypes description provider subtasks 0 (agent_types.take agent_count)

/--
Embedding of `Delegator._plan_agents`: the dynamic branch runs iff
`agent_config` is a nonempty list (Python truthiness of the `.get` result);
otherwise the legacy branch runs.  The LLM-produced subtask list
(`_decompose_task`) is the parameter `subtasks`.
-/
def planAgents (description : String) (analysis : TaskAnalysis)
    (provider : String) (subtasks : List String) : List AgentPlan :=
  if !analysis.agent_config.isEmpty then
    planAgentsDynamic description provider analysis.agent_config subtasks
  else planAgentsLegacy description analysis provider subtasks

/-- Embedding of `Delegator._determine_strategy`. -/
def determineStrategy (agents : List AgentPlan) (analysis : TaskAnalysis) : String :=
  if agents.length = 1 then "single"
  else if analysis.requires_debate then "debate"
  else "sequential"

/-! ## Task lifecycle (backend/models/task.py, backend/core/orchestrator.py,
backend/api/routes/tasks.py) -/

/-- Enum `TaskStatus`. -/
inductive TaskStatus where
  | pending
  | in_progress
  | validating
  | debating
  | completed
  | failed
  | cancelled
  deriving Repr, DecidableEq

/-- The aggregated `task.result` dict set at the end of `execute_task`. -/
structure TaskResult where
  content : String
  agents : List String
  deriving Repr, DecidableEq

/-- Pydantic model `Task` (the fields the lifecycle claims touch; timestamps
are natural-number seconds). -/
structure Task where
  id : String
  description : String
  status : TaskStatus := TaskStatus.pending
  provider : String := "auto"
  result : Option TaskResult := none
  error : Option String := none
  created_at : ℕ
  updated_at : ℕ
  completed_at : Option ℕ := none
  tokens_used : Option ℕ := none
  agents_count : ℕ := 0
  progress : Option ℚ := none
  deriving Repr, DecidableEq

/-- Embedding of `Orchestrator.create_task`: a fresh pending task; the model
defaults leave `completed_at = None`. -/
def createTask (id description provider : String) (now : ℕ) : Task :=
  { id := id
    description := description
    provider := provider
    status := TaskStatus.pending
    created_at := now
    updated_at := now }

/-- Resolution of one `execute_task` run: either every pipeline step
succeeded (carrying the gathered agent ids and the synthesized content), or
some step raised (carrying the exception message). -/
inductive ExecOutcome where
  | success (agentIds : List String) (finalContent : String)
  | failure (message : String)
  deriving Repr, DecidableEq

/--
Embedding of the task-state effect of `Orchestrator.execute_task`.  The
method first sets `status = IN_PROGRESS`; on the success path it finishes
with `task.result = {...}`, `status = COMPLETED`, `agents_count =
len(results)` and `progress = 1.0`; the `except` path sets `status = FAILED`
and `error`.  No statement in the repository assigns `task.completed_at`, so
the field keeps whatever value the task carried (intermediate `progress`
checkpoints are overwritten by the terminal values and omitted here).
-/
def executeTask (task : Task) (outcome : ExecOutcome) : Task :=
  let task := { task with status := TaskStatus.in_progress }
  match outcome with
  | ExecOutcome.success agentIds finalContent =>
    { task with
      result := some { content := finalContent, agents := agentIds }
      status := TaskStatus.completed
      agents_count := agentIds.length
      progress := some 1 }
  | ExecOutcome.failure msg =>
    { task with status := TaskStatus.failed, error := some msg }

/-- Embedding of the cancellation branch of `DELETE /api/tasks/{id}`: a task
in `{in_progress, debating, validating}` gets `status = CANCELLED`; nothing
else on the task is written. -/
def cancelTask (task : Task) : Task :=
  if task.status = TaskStatus.in_progress ∨ task.status = TaskStatus.debating
      ∨ task.status = TaskStatus.validating then
    { task with status := TaskStatus.cancelled }
  else task

/-- Terminal statuses named by the invariant. -/
def isTerminal (s : TaskStatus) : Bool :=
  s == TaskStatus.completed || s == TaskStatus.failed || s == TaskStatus.cancelled

/-! ## Theorems -/

/-- The embedded Python `min` agrees with the lattice `min` on ℚ. -/
theorem pyMin_eq_min (a b : ℚ) : pyMin a b = min a b := by
  unfold pyMin
  by_cases h : b < a
  · rw [if_pos h]
    exact (min_eq_right (le_of_lt h)).symm
  · rw [if_neg h]
    exact (min_eq_left (not_lt.mp h)).symm

/-- The embedded Python `max` agrees with the lattice `max` on ℚ. -/
theorem pyMax_eq_max (a b : ℚ) : pyMax a b = max a b := by
  unfold pyMax
  by_cases h : a < b
  · rw [if_pos h]
    exact (max_eq_right (le_of_lt h)).symm
  · rw [if_neg h]
    exact (max_eq_left (not_lt.mp h)).symm

/--
C10: for every input string, `SupervisorAgent._extract_score` returns a value
in [0, 10]; a matched number greater than 10 is first divided by 10, the
result is clamped to [0, 10], and when no score pattern matches the
extraction returns exactly 7.0.
-/
theorem extract_score_in_range :
    (∀ m : Option ℚ, 0 ≤ extractScore m ∧ extractScore m ≤ 10) ∧
    extractScore none = 7 ∧
    (∀ x : ℚ, 10 < x → extractScore (some x) = min 10 (max 0 (x / 10))) ∧
    (∀ x : ℚ, x ≤ 10 → extractScore (some x) = min 10 (max 0 x)) := by
  refine ⟨fun m => ?_, rfl, fun x hx => ?_, fun x hx => ?_⟩
  · match m with
    | none => norm_num [extractScore]
    | some x =>
      have hval : extractScore (some x)
          = pyMin 10 (pyMax 0 (if x > 10 then x / 10 else x)) := rfl
      rw [hval, pyMin_eq_min, pyMax_eq_max]
      constructor
      · exact le_min (by norm_num) (le_max_left 0 _)
      · exact min_le_left 10 _
  · simp [extractScore, hx, pyMin_eq_min, pyMax_eq_max]
  · simp [extractScore, not_lt.mpr hx, pyMin_eq_min, pyMax_eq_max]

/-- Witness for C10 at the concrete matched value 15: the theorem applied at
`some 15` gives the divided-then-clamped result. -/
theorem extract_score_in_range_witness :
    extractScore (some 15) = min 10 (max 0 ((15 : ℚ) / 10)) :=
  extract_score_in_range.2.2.1 15 (by norm_num)

/--
C9: `QueryExpander.expand` takes the decompose path for every assessed
complexity greater than or equal to the 0.4 threshold (including exactly
0.4); strictly below 0.4 it returns execution mode direct, a single expanded
query equal to the input, and `requires_debate = false`.
-/
theorem expand_threshold_boundary :
    ∀ (q : String) (c : ℚ) (exp : LlmExpansion) (sugg : List String),
      (DECOMPOSITION_THRESHOLD ≤ c →
        (expand q c exp sugg).execution_mode = "decompose") ∧
      (c < DECOMPOSITION_THRESHOLD →
        (expand q c exp sugg).execution_mode = "direct" ∧
        (expand q c exp sugg).expanded_queries = [q] ∧
        (expand q c exp sugg).requires_debate = false) := by
  intro q c exp sugg
  constructor
  · intro h
    simp [expand, if_neg (not_lt.mpr h)]
  · intro h
    simp [expand, if_pos h]

/-- Witness for C9 at complexity exactly 0.4, which lands on the decompose
path. -/
theorem expand_threshold_boundary_witness :
    (expand "compare A and B" (4 / 10)
      (LlmExpansion.mk [] [] ["q1"] (1 / 2)) []).execution_mode = "decompose" :=
  (expand_threshold_boundary "compare A and B" (4 / 10) _ []).1
    (by norm_num [DECOMPOSITION_THRESHOLD])

/--
C2 counterexample: with every tier configured and every tier operation
failing — in particular the durable postgres save — `MemoryManager.write`
still returns `entry.id` to its caller instead of reporting failure, because
each tier operation sits in `try ... except: pass`.
-/
theorem memory_write_durable_failure_still_ok :
    durableWriteSucceeded
      { redisConfigured := true, qdrantConfigured := true,
        postgresConfigured := true, redisSetFails := true,
        qdrantUpsertFails := true, postgresSaveFails := true,
        publishFails := true } = false ∧
    (memoryWrite
      { redisConfigured := true, qdrantConfigured := true,
        postgresConfigured := true, redisSetFails := true,
        qdrantUpsertFails := true, postgresSaveFails := true,
        publishFails := true }
      { id := "entry-1", scope := MemoryScope.task,
        namespaceField := "task:t1", content := "snapshot" }).result
      = Except.ok "entry-1" := ⟨rfl, rfl⟩

/--
C2 amended: `MemoryManager.write` reports success (returns `entry.id`) for
every combination of tier availability and tier failures; in particular it
succeeds whenever the durable tier succeeds, and it still reports success
when the durable tier fails, never surfacing failure to the caller.
-/
theorem memory_write_always_reports_ok :
    ∀ (env : WriteEnv) (entry : MemoryEntry),
      (memoryWrite env entry).result = Except.ok entry.id := by
  intro env entry
  rfl

/--
C1: the code evaluated at a concrete completed task — `execute_task` run to
the successful end, to the exception path, and a cancellation — reaches each
terminal status with `completed_at` still `None`, because no statement in the
repository ever assigns `completed_at`.  This contradicts the claimed
invariant that `completed_at` is set iff the task is terminal.
-/
theorem execute_task_terminal_without_completed_at :
    (executeTask (createTask "task-1" "demo" "auto" 0)
        (ExecOutcome.success ["agent-1"] "answer")).status = TaskStatus.completed ∧
    isTerminal (executeTask (createTask "task-1" "demo" "auto" 0)
        (ExecOutcome.success ["agent-1"] "answer")).status = true ∧
    (executeTask (createTask "task-1" "demo" "auto" 0)
        (ExecOutcome.success ["agent-1"] "answer")).completed_at = none ∧
    (executeTask (createTask "task-1" "demo" "auto" 0)
        (ExecOutcome.failure "boom")).status = TaskStatus.failed ∧
    (executeTask (createTask "task-1" "demo" "auto" 0)
        (ExecOutcome.failure "boom")).completed_at = none ∧
    (cancelTask { createTask "task-1" "demo" "auto" 0 with
        status := TaskStatus.in_progress }).status = TaskStatus.cancelled ∧
    (cancelTask { createTask "task-1" "demo" "auto" 0 with
        status := TaskStatus.in_progress }).completed_at = none := by
  refine ⟨rfl, rfl, rfl, rfl, rfl, ?_, ?_⟩ <;> rfl

/--
C3: the code evaluated at the half-open state shows the trial-request bound
is not enforced.  After five failures the breaker opens; after the recovery
timeout one `allow_request` moves it to half-open; four further consecutive
`allow_request` calls (no success or failure recorded in between) are all
allowed, although the claim permits at most `half_open_max_calls = 3` trial
requests — `half_open_calls` is never incremented anywhere in the code.
-/
theorem circuit_breaker_half_open_trials_unbounded :
    (recordFailures ({} : CircuitBreaker) 0 5).state = CBState.open ∧
    (allowRequest (recordFailures ({} : CircuitBreaker) 0 5) 60).1 = true ∧
    (allowRequest (recordFailures ({} : CircuitBreaker) 0 5) 60).2.state
      = CBState.half_open ∧
    (allowRequestRun (allowRequest (recordFailures ({} : CircuitBreaker) 0 5) 60).2
      61 4).1 = [true, true, true, true] := by
  refine ⟨?_, ?_, ?_, ?_⟩ <;> decide

/-- With no critical issues and a verdict other than REJECT,
`ReworkDecision.from_evaluation` decides REWORK or ACCEPT. -/
theorem from_evaluation_rework_or_accept (e : Evaluation) (th : ℚ)
    (h1 : e.critical = 0) (h2 : e.verdict ≠ "REJECT") :
    (ReworkDecision.from_evaluation e th).action = "REWORK" ∨
    (ReworkDecision.from_evaluation e th).action = "ACCEPT" := by
  unfold ReworkDecision.from_evaluation
  rw [if_neg (by simp [h1, h2])]
  split
  · exact Or.inl rfl
  · exact Or.inr rfl

/--
C6: `SupervisorAgent.critique_agent_work` increments the agent's rework count
on every REWORK decision (and leaves the counts untouched otherwise), and on
the critique after the count has reached `max_rework_attempts = 2` —
whenever the evaluation itself does not force a REJECT (no critical issues,
verdict not REJECT), which is independent of the score — the returned
decision is ACCEPT regardless of score.
-/
theorem critique_agent_work_rework_bound :
    ∀ (counts : String → ℕ) (agentId : String) (e : Evaluation) (fallback : ℚ),
      ((ReworkDecision.from_evaluation e quality_threshold).action = "REWORK" →
        (critiqueAgentWork counts agentId e fallback).2 agentId
          = counts agentId + 1) ∧
      ((ReworkDecision.from_evaluation e quality_threshold).action ≠ "REWORK" →
        (critiqueAgentWork counts agentId e fallback).2 = counts) ∧
      (counts agentId = max_rework_attempts → e.critical = 0 →
        e.verdict ≠ "REJECT" →
        (critiqueAgentWork counts agentId e fallback).1.action = "ACCEPT") := by
  intro counts agentId e fallback
  refine ⟨?_, ?_, ?_⟩
  · intro h
    unfold critiqueAgentWork
    rw [if_pos h]
    by_cases hgt : counts agentId + 1 > max_rework_attempts <;> simp [hgt]
  · intro h
    unfold critiqueAgentWork
    rw [if_neg h]
  · intro hc h1 h2
    rcases from_evaluation_rework_or_accept e quality_threshold h1 h2 with h | h
    · unfold critiqueAgentWork
      rw [if_pos h, if_pos (by rw [hc]; norm_num [max_rework_attempts])]
    · unfold critiqueAgentWork
      rw [if_neg (by rw [h]; decide)]
      exact h

/-- Witness for C6: an agent already at 2 reworks receives a low-scoring
evaluation (score 3, REWORK territory); the decision is forced to ACCEPT and
the counter moves to 3. -/
theorem critique_agent_work_rework_bound_witness :
    (critiqueAgentWork (fun _ => 2) "agent-1"
      (Evaluation.mk (some 3) false 0 0 [] "") 7).1.action = "ACCEPT" ∧
    (critiqueAgentWork (fun _ => 2) "agent-1"
      (Evaluation.mk (some 3) false 0 0 [] "") 7).2 "agent-1" = 3 := by
  have h := critique_agent_work_rework_bound (fun _ => 2) "agent-1"
    (Evaluation.mk (some 3) false 0 0 [] "") 7
  exact ⟨h.2.2 rfl rfl (by decide), h.1 (by decide)⟩


/-- The dynamic-branch loop emits one plan per config entry. -/
theorem plansFromConfigs_length (provider : String) :
    ∀ (i : ℕ) (configs : List AgentConfig),
      (plansFromConfigs provider i configs).length = configs.length := by
  intro i configs
  induction configs generalizing i with
  | nil => rfl
  | cons c rest ih => simp [plansFromConfigs, ih]

/-- The padding loop emits one plan per consumed default role. -/
theorem padList_length (provider : String) :
    ∀ (j : ℕ) (l : List String),
      (padList provider j l).length = l.length := by
  intro j l
  induction l generalizing j with
  | nil => rfl
  | cons d rest ih => simp [padList, ih]

/-- Subtask back-assignment does not change the number of plans. -/
theorem assignSubtasks_length (d : String) (s : List String) :
    ∀ (i : ℕ) (plans : List AgentPlan),
      (assignSubtasks d s i plans).length = plans.length := by
  intro i plans
  induction plans generalizing i with
  | nil => rfl
  | cons p rest ih => simp [assignSubtasks, ih]

/-- Padding tops a plan list up to the floor of four agents and never
removes any. -/
theorem padPlans_length (provider : String) (plans : List AgentPlan) :
    (padPlans provider plans).length = max plans.length 4 := by
  unfold padPlans
  rw [List.length_append, padList_length, List.length_take]
  have h5 : defaultRoles.length = 5 := rfl
  rw [h5]
  omega

/-- The countdown form of the legacy fill loop appends exactly its fuel. -/
theorem fillTypesGo_length :
    ∀ (n : ℕ) (types : List String),
      (fillTypesGo n types).length = types.length + n := by
  intro n
  induction n with
  | zero => intro types; rfl
  | succ m ih =>
    intro types
    rw [fillTypesGo, ih, List.length_append]
    simp
    omega

/-- The legacy plan loop emits one plan per agent type. -/
theorem plansFromTypes_length (d p : String) (s : List String) :
    ∀ (i : ℕ) (types : List String),
      (plansFromTypes d p s i types).length = types.length := by
  intro i types
  induction types generalizing i with
  | nil => rfl
  | cons t rest ih => simp [plansFromTypes, ih]

/-- The legacy clamp lands in [4, 15]. -/
theorem clampAgentCount_bounds (n : ℤ) :
    4 ≤ clampAgentCount n ∧ clampAgentCount n ≤ 15 := by
  unfold clampAgentCount
  have h1 : (4 : ℤ) ≤ max 4 (min n 15) := le_max_left _ _
  have h2 : max 4 (min n 15) ≤ 15 := max_le (by norm_num) (min_le_right _ _)
  omega

/-- The legacy branch produces exactly the clamped agent count. -/
theorem planAgentsLegacy_length (d : String) (analysis : TaskAnalysis)
    (p : String) (s : List String) :
    (planAgentsLegacy d analysis p s).length
      = clampAgentCount analysis.agent_count := by
  unfold planAgentsLegacy
  rw [plansFromTypes_length, List.length_take, List.length_take]
  unfold fillTypes
  rw [fillTypesGo_length]
  omega

/-- Size of the planned team: the clamped count on the legacy path, the
config length padded to at least four on the dynamic path. -/
theorem planAgents_length (d : String) (analysis : TaskAnalysis) (p : String)
    (s : List String) :
    (planAgents d analysis p s).length
      = if analysis.agent_config.isEmpty then clampAgentCount analysis.agent_count
        else max analysis.agent_config.length 4 := by
  unfold planAgents planAgentsDynamic
  cases hb : analysis.agent_config.isEmpty with
  | true => simp [hb, planAgentsLegacy_length]
  | false =>
    simp only [hb, Bool.not_false, if_pos, if_true]
    rw [assignSubtasks_length, padPlans_length, plansFromConfigs_length]
    simp [hb]

/-- Providers of the dynamic-branch plans: round-robin by absolute index in
auto mode, the requested provider otherwise. -/
theorem plansFromConfigs_providers (provider : String) :
    ∀ (i : ℕ) (configs : List AgentConfig),
      (plansFromConfigs provider i configs).map (fun pl => pl.provider)
        = (List.range configs.length).map
            (fun k => if provider = "auto" then selectProviderForAgent "" (i + k)
              else provider) := by
  intro i configs
  induction configs generalizing i with
  | nil => rfl
  | cons c rest ih =>
    rw [List.length_cons, List.range_succ_eq_map]
    simp only [plansFromConfigs, List.map_cons, List.map_map]
    refine congrArg₂ List.cons rfl ?_
    rw [ih (i + 1)]
    have harg : ∀ k : ℕ, i + 1 + k = i + (k + 1) := fun k => by omega
    simp [Function.comp, harg]

/-- Providers of the padding plans: round-robin continuing at the running
index in auto mode, the requested provider otherwise. -/
theorem padList_providers (provider : String) :
    ∀ (j : ℕ) (l : List String),
      (padList provider j l).map (fun pl => pl.provider)
        = (List.range l.length).map
            (fun k => if provider = "auto" then selectProviderForAgent "" (j + k)
              else provider) := by
  intro j l
  induction l generalizing j with
  | nil => rfl
  | cons d rest ih =>
    rw [List.length_cons, List.range_succ_eq_map]
    simp only [padList, List.map_cons, List.map_map]
    refine congrArg₂ List.cons ?_ ?_
    · by_cases hp : provider = "auto" <;> simp [hp, selectProviderForAgent]
    · rw [ih (j + 1)]
      have harg : ∀ k : ℕ, j + 1 + k = j + (k + 1) := fun k => by omega
      simp [Function.comp, harg]

/-- Subtask back-assignment does not touch the provider column. -/
theorem assignSubtasks_providers (d : String) (s : List String) :
    ∀ (i : ℕ) (plans : List AgentPlan),
      (assignSubtasks d s i plans).map (fun pl => pl.provider)
        = plans.map (fun pl => pl.provider) := by
  intro i plans
  induction plans generalizing i with
  | nil => rfl
  | cons p rest ih => simp [assignSubtasks, ih]

/-- Providers of the legacy-branch plans: round-robin by index in auto mode,
the requested provider otherwise. -/
theorem plansFromTypes_providers (d provider : String) (s : List String) :
    ∀ (i : ℕ) (types : List String),
      (plansFromTypes d provider s i types).map (fun pl => pl.provider)
        = (List.range types.length).map
            (fun k => if provider = "auto" then selectProviderForAgent "" (i + k)
              else provider) := by
  intro i types
  induction types generalizing i with
  | nil => rfl
  | cons t rest ih =>
    rw [List.length_cons, List.range_succ_eq_map]
    simp only [plansFromTypes, List.map_cons, List.map_map]
    refine congrArg₂ List.cons rfl ?_
    rw [ih (i + 1)]
    have harg : ∀ k : ℕ, i + 1 + k = i + (k + 1) := fun k => by omega
    simp [Function.comp, harg]

/-- The provider column of a whole `_plan_agents` result is round-robin by
plan position in auto mode and constantly the requested provider otherwise,
on both branches and across padding. -/
theorem planAgents_providers (d : String) (analysis : TaskAnalysis)
    (provider : String) (s : List String) :
    (planAgents d analysis provider s).map (fun pl => pl.provider)
      = (List.range (planAgents d analysis provider s).length).map
          (fun k => if provider = "auto" then selectProviderForAgent "" k
            else provider) := by
  unfold planAgents
  cases hb : analysis.agent_config.isEmpty with
  | true =>
    simp only [hb, Bool.not_true, Bool.false_eq_true, if_false]
    unfold planAgentsLegacy
    rw [plansFromTypes_providers, plansFromTypes_length]
    simp
  | false =>
    simp only [hb, Bool.not_false, if_true]
    unfold planAgentsDynamic padPlans
    rw [assignSubtasks_providers, assignSubtasks_length, List.map_append,
      List.length_append, plansFromConfigs_providers, plansFromConfigs_length,
      padList_providers, padList_length, List.range_add, List.map_append,
      List.map_map]
    refine congrArg₂ (· ++ ·) (by simp) ?_
    simp [Function.comp]

/-- Counting a value after mapping is counting preimages. -/
theorem count_map_eq_countP {α : Type} (f : α → String) (x : String) :
    ∀ l : List α, (l.map f).count x = l.countP (fun a => f a == x) := by
  intro l
  induction l with
  | nil => rfl
  | cons a t ih =>
    rw [List.map_cons, List.count_cons, List.countP_cons, ih]

/-- Residue counting over an initial segment of ℕ: each residue class mod 3
appears `n / 3` times, plus one for the residues below `n % 3`. -/
theorem countP_mod (j : ℕ) (hj : j < 3) :
    ∀ n : ℕ, (List.range n).countP (fun k => k % 3 == j)
      = n / 3 + (if j < n % 3 then 1 else 0) := by
  intro n
  induction n with
  | zero => simp
  | succ m ih =>
    rw [List.range_succ, List.countP_append, ih]
    have hval : List.countP (fun k => k % 3 == j) [m]
        = if m % 3 = j then 1 else 0 := by
      by_cases h : m % 3 = j <;> simp [List.countP_cons, h]
    rw [hval]
    by_cases h : m % 3 = j
    · rw [if_pos h]
      split_ifs <;> omega
    · rw [if_neg h]
      split_ifs <;> omega

/-- The round-robin selector as its residue class: pointwise comparison with
each cloud provider name. -/
theorem selectProvider_eq_iff (x : String) (j : ℕ) (hj : j < 3)
    (hx : cloudProviders.getD j "google" = x) :
    ∀ k : ℕ, ((selectProviderForAgent "" k) == x) = (k % 3 == j) := by
  intro k
  have hsel : selectProviderForAgent "" k
      = cloudProviders.getD (k % 3) "google" := rfl
  rw [hsel, ← hx]
  have h3 : k % 3 = 0 ∨ k % 3 = 1 ∨ k % 3 = 2 := by omega
  interval_cases j <;> rcases h3 with h | h | h <;> rw [h] <;> rfl

/-- Count of one provider in the first `n` round-robin assignments. -/
theorem count_rr_provider (n : ℕ) (x : String) (j : ℕ) (hj : j < 3)
    (hx : cloudProviders.getD j "google" = x) :
    ((List.range n).map (fun k => selectProviderForAgent "" k)).count x
      = n / 3 + (if j < n % 3 then 1 else 0) := by
  rw [count_map_eq_countP]
  rw [show (fun a => selectProviderForAgent "" a == x)
      = (fun k => k % 3 == j) from funext (selectProvider_eq_iff x j hj hx)]
  exact countP_mod j hj n

/-- Membership after a Python-style dict assignment: every binding either was
already present or is the inserted one. -/
theorem mem_dictInsert {β : Type} {m : List (String × β)} {k : String} {v : β}
    {q : String × β} (hq : q ∈ dictInsert m k v) : q ∈ m ∨ q = (k, v) := by
  unfold dictInsert at hq
  split at hq
  · obtain ⟨p, hp, hfp⟩ := List.mem_map.mp hq
    by_cases hpk : p.1 == k
    · right
      rw [if_pos hpk] at hfp
      exact hfp.symm
    · left
      rw [if_neg hpk] at hfp
      exact hfp ▸ hp
  · rcases List.mem_append.mp hq with h | h
    · exact Or.inl h
    · exact Or.inr (List.mem_singleton.mp h)

/-- Invariant of the `_conduct_voting` fold: every recorded vote names a
current-round proposal of a different agent. -/
theorem conductVoting_fold_invariant (current : List Proposal) :
    ∀ (agents : List String) (votes : List (String × String)),
      (∀ q ∈ votes, q.2 ≠ q.1 ∧ ∃ p ∈ current, p.agent_id = q.2) →
      ∀ q ∈ agents.foldl
        (fun votes aid =>
          let other_proposals := current.filter (fun p => p.agent_id != aid)
          if other_proposals.isEmpty then votes
          else dictInsert votes aid (voteSelect other_proposals))
        votes,
        q.2 ≠ q.1 ∧ ∃ p ∈ current, p.agent_id = q.2 := by
  intro agents
  induction agents with
  | nil => intro votes h q hq; exact h q hq
  | cons aid rest ih =>
    intro votes h q hq
    simp only [List.foldl_cons] at hq
    refine ih _ ?_ q hq
    intro r hr
    by_cases he : (current.filter (fun p => p.agent_id != aid)).isEmpty
    · rw [if_pos he] at hr
      exact h r hr
    · rw [if_neg he] at hr
      rcases mem_dictInsert hr with hold | hnew
      · exact h r hold
      · subst hnew
        cases hcur : current.filter (fun p => p.agent_id != aid) with
        | nil => rw [hcur] at he; simp at he
        | cons p ps =>
          have hp : p ∈ current.filter (fun p => p.agent_id != aid) := by
            rw [hcur]; exact List.mem_cons_self p ps
          have hp2 := List.mem_filter.mp hp
          have hne : p.agent_id ≠ aid := by
            simpa using hp2.2
          constructor
          · simpa [hcur, voteSelect] using hne
          · exact ⟨p, hp2.1, by simp [hcur, voteSelect]⟩

/--
C4: in every debate round, the recorded votes map never assigns an agent its
own proposal: every vote `(a, pid)` produced by
`DebateEngine._conduct_voting` has `pid ≠ a`, and `pid` is the id of a
current-round proposal belonging to some other agent.
-/
theorem conduct_voting_never_self_vote :
    ∀ (agents : List String) (state : DebateState) (q : String × String),
      q ∈ conductVoting agents state →
      q.2 ≠ q.1 ∧
      ∃ p ∈ state.proposals,
        p.roundNum = state.roundNum ∧ p.agent_id = q.2 ∧ p.agent_id ≠ q.1 := by
  intro agents state q hq
  have h := conductVoting_fold_invariant (currentProposals state) agents []
    (by intro r hr; simp at hr) q hq
  obtain ⟨hne, p, hp, hid⟩ := h
  have hp2 := List.mem_filter.mp hp
  refine ⟨hne, p, hp2.1, ?_, hid, hid ▸ hne⟩
  simpa using hp2.2

/-- Lookup after incrementing every binding at key `q` (keys are preserved by
the increment map). -/
theorem lookupCount_map_bump (q pid : String) :
    ∀ counts : List (String × ℕ),
      lookupCount (counts.map (fun p => if p.1 == q then (p.1, p.2 + 1) else p)) pid
        = lookupCount counts pid
          + (if (counts.any (fun p => p.1 == pid)) ∧ pid = q then 1 else 0) := by
  intro counts
  induction counts with
  | nil => simp [lookupCount]
  | cons p rest ih =>
    by_cases hp : p.1 == pid
    · have hp1 : p.1 = pid := by simpa using hp
      by_cases hq : pid = q
      · simp [lookupCount, List.find?_cons, hp1, hq, List.any_cons]
      · have : ¬ p.1 = q := by rw [hp1]; exact hq
        simp [lookupCount, List.find?_cons, hp1, hq, this, List.any_cons]
    · have hfst : (if p.1 == q then (p.1, p.2 + 1) else p).1 = p.1 := by
        split <;> rfl
      unfold lookupCount at ih ⊢
      rw [List.map_cons, List.find?_cons_of_neg _ (by simp only [hfst]; exact hp),
        List.find?_cons_of_neg _ (by simpa using hp)]
      rw [ih]
      congr 1
      simp only [List.any_cons, hp, Bool.false_or]

/-- Lookup after appending a fresh binding `(q, 1)` at the end of the dict. -/
theorem lookupCount_append_single (q pid : String) :
    ∀ counts : List (String × ℕ),
      lookupCount (counts ++ [(q, 1)]) pid
        = lookupCount counts pid
          + (if ¬(counts.any (fun p => p.1 == pid)) ∧ pid = q then 1 else 0) := by
  intro counts
  induction counts with
  | nil =>
    by_cases hq : pid = q
    · simp [lookupCount, List.find?_cons, hq]
    · have : ¬ q = pid := fun h => hq h.symm
      simp [lookupCount, List.find?_cons, hq, this]
  | cons p rest ih =>
    by_cases hp : p.1 == pid
    · simp [lookupCount, List.find?_cons, hp, List.any_cons]
    · unfold lookupCount at ih ⊢
      rw [List.cons_append, List.find?_cons_of_neg _ (by simpa using hp),
        List.find?_cons_of_neg _ (by simpa using hp)]
      rw [ih]
      congr 1
      simp only [List.any_cons, hp, Bool.false_or]

/-- One `count_votes` step: `counts[pid] = counts.get(pid, 0) + 1` raises the
lookup at `pid` by one exactly when the bumped key is `pid`. -/
theorem lookupCount_bumpCount (counts : List (String × ℕ)) (q pid : String) :
    lookupCount (bumpCount counts q) pid
      = lookupCount counts pid + (if pid = q then 1 else 0) := by
  unfold bumpCount
  by_cases hany : counts.any (fun p => p.1 == q)
  · rw [if_pos hany, lookupCount_map_bump]
    by_cases hq : pid = q
    · subst hq
      simp [hany]
    · simp [hq]
  · rw [if_neg hany, lookupCount_append_single]
    by_cases hq : pid = q
    · subst hq
      simp [hany]
    · simp [hq]

/-- The fold of `DebateScorer.count_votes` computes, for each proposal id,
the number of votes whose value is that id. -/
theorem lookupCount_foldl_bump (pid : String) :
    ∀ (votes : List (String × String)) (counts : List (String × ℕ)),
      lookupCount (votes.foldl (fun c v => bumpCount c v.2) counts) pid
        = lookupCount counts pid + (votes.map (fun v => v.2)).count pid := by
  intro votes
  induction votes with
  | nil => simp
  | cons v vs ih =>
    intro counts
    rw [List.foldl_cons, ih, lookupCount_bumpCount, List.map_cons,
      List.count_cons]
    by_cases h : pid = v.2
    · rw [if_pos h, if_pos (beq_iff_eq.mpr h.symm)]
      omega
    · rw [if_neg h, if_neg (by simpa using Ne.symm h)]
      omega

/-- Embedding-level restatement: `count_votes` followed by `.get(pid, 0)`
equals the plain count of votes cast for `pid`. -/
theorem lookupCount_countVotes (votes : List (String × String)) (pid : String) :
    lookupCount (countVotes votes) pid = (votes.map (fun v => v.2)).count pid := by
  unfold countVotes
  rw [lookupCount_foldl_bump]
  simp [lookupCount]

/-- Membership in the `_calculate_scores` fold: every entry of the scores
dict is keyed by a processed proposal's agent id and carries its computed
value. -/
theorem mem_foldl_scores {β : Type} (g : Proposal → β) :
    ∀ (l : List Proposal) (init : List (String × β)) (q : String × β),
      q ∈ l.foldl (fun m pr => dictInsert m pr.agent_id (g pr)) init →
      q ∈ init ∨ ∃ pr ∈ l, q = (pr.agent_id, g pr) := by
  intro l
  induction l with
  | nil => intro init q hq; exact Or.inl hq
  | cons pr rest ih =>
    intro init q hq
    rw [List.foldl_cons] at hq
    rcases ih _ q hq with h | ⟨pr2, hpr2, hq2⟩
    · rcases mem_dictInsert h with h2 | h2
      · exact Or.inl h2
      · exact Or.inr ⟨pr, List.mem_cons_self pr rest, h2⟩
    · exact Or.inr ⟨pr2, List.mem_cons_of_mem pr hpr2, hq2⟩

/--
C8: every entry of the scores dict computed by
`DebateEngine._calculate_scores` under the default `DebateConfig` belongs to
a current-round proposal `p` and equals
`0.35 * votes(p)/N + 0.35 * avg_critique(p)/10 + 0.15 * confidence(p) +
0.15 * min(|evidence(p)|/5, 1)` clipped to [0, 1], where `N` is the number
of agents.
-/
theorem calculate_scores_weighted_formula :
    ∀ (agents : List String) (state : DebateState) (pid : String) (s : ℚ),
      0 < agents.length →
      (pid, s) ∈ calculateScores {} agents state →
      ∃ pr ∈ state.proposals,
        pr.roundNum = state.roundNum ∧ pid = pr.agent_id ∧
        s = specClippedScore state agents.length pr ∧ 0 ≤ s ∧ s ≤ 1 := by
  intro agents state pid s hN hmem
  simp only [calculateScores] at hmem
  rcases mem_foldl_scores _ _ _ _ hmem with h | ⟨pr, hpr, heq⟩
  · simp at h
  · have hpr2 := List.mem_filter.mp hpr
    have hround : pr.roundNum = state.roundNum := by simpa using hpr2.2
    have hpid : pid = pr.agent_id := congrArg Prod.fst heq
    have hs : s = calculateWeightedScore
        (lookupCount (countVotes state.votes) pr.agent_id)
        (avgCritique state pr.agent_id) pr.confidence pr.evidence.length
        ({} : DebateConfig).weights agents.length := congrArg Prod.snd heq
    refine ⟨pr, hpr2.1, hround, hpid, ?_, ?_, ?_⟩
    · rw [hs]
      unfold calculateWeightedScore specClippedScore
      rw [lookupCount_countVotes]
      simp only [pyMin_eq_min, pyMax_eq_max]
    · rw [hs]
      unfold calculateWeightedScore
      rw [pyMin_eq_min, pyMax_eq_max]
      exact le_min (le_max_right _ 0) zero_le_one
    · rw [hs]
      unfold calculateWeightedScore
      rw [pyMin_eq_min]
      exact min_le_right _ 1

/-- Witness for C8: two agents, one vote and one critique for proposal A;
the score entry for A is 0.35 * 1/2 + 0.35 * 8/10 + 0.15 * 1/2 +
0.15 * 2/5 = 59/100. -/
theorem calculate_scores_weighted_formula_witness :
    ("A", (59 : ℚ) / 100) ∈ calculateScores {} ["A", "B"]
      (DebateState.mk 1
        [Proposal.mk "A" "pa" (1 / 2) ["e1", "e2"] 1,
          Proposal.mk "B" "pb" (3 / 10) [] 1]
        [Critique.mk "B" "A" 8 1]
        [("A", "B"), ("B", "A")]) ∧
    ∃ pr ∈ (DebateState.mk 1
        [Proposal.mk "A" "pa" (1 / 2) ["e1", "e2"] 1,
          Proposal.mk "B" "pb" (3 / 10) [] 1]
        [Critique.mk "B" "A" 8 1]
        [("A", "B"), ("B", "A")]).proposals,
      pr.roundNum = 1 ∧ "A" = pr.agent_id ∧
      (59 : ℚ) / 100 = specClippedScore
        (DebateState.mk 1
          [Proposal.mk "A" "pa" (1 / 2) ["e1", "e2"] 1,
            Proposal.mk "B" "pb" (3 / 10) [] 1]
          [Critique.mk "B" "A" 8 1]
          [("A", "B"), ("B", "A")]) 2 pr ∧
      0 ≤ (59 : ℚ) / 100 ∧ (59 : ℚ) / 100 ≤ 1 := by
  have hlist : calculateScores {} ["A", "B"]
      (DebateState.mk 1
        [Proposal.mk "A" "pa" (1 / 2) ["e1", "e2"] 1,
          Proposal.mk "B" "pb" (3 / 10) [] 1]
        [Critique.mk "B" "A" 8 1]
        [("A", "B"), ("B", "A")])
      = [("A", (59 : ℚ) / 100), ("B", (79 : ℚ) / 200)] := by
    simp [calculateScores, currentProposals, countVotes, bumpCount, lookupCount,
      avgCritique, critiquesFor, calculateWeightedScore, dictInsert, pyMin, pyMax]
    norm_num
  refine ⟨by rw [hlist]; exact List.mem_cons_self _ _, ?_⟩
  exact calculate_scores_weighted_formula ["A", "B"] _ "A" ((59 : ℚ) / 100)
    (by simp) (by rw [hlist]; exact List.mem_cons_self _ _)

/-- Witness for C4: two agents each propose in round 1; agent A's recorded
vote targets agent B's proposal. -/
theorem conduct_voting_never_self_vote_witness :
    ("A", "B") ∈ conductVoting ["A", "B"]
      (DebateState.mk 1
        [Proposal.mk "A" "proposal a" (1 / 2) [] 1,
          Proposal.mk "B" "proposal b" (1 / 2) [] 1] [] []) ∧
    ("B" : String) ≠ "A" := by
  refine ⟨by decide, ?_⟩
  exact (conduct_voting_never_self_vote ["A", "B"]
    (DebateState.mk 1
      [Proposal.mk "A" "proposal a" (1 / 2) [] 1,
        Proposal.mk "B" "proposal b" (1 / 2) [] 1] [] [])
    ("A", "B") (by decide)).1

/--
C5 counterexample: an analysis whose `agent_config` lists 16 roles makes
`_plan_agents` emit 16 plans — the dynamic branch never truncates to 15 —
and the strategy is `sequential`, not `single`, so `|agents_needed| ∈ [4, 15]
unless strategy is single` fails.
-/
theorem plan_agents_sixteen_counterexample :
    (planAgents "t"
      (TaskAnalysis.mk "" [] 4
        (List.replicate 16 (AgentConfig.mk (some "Expert") (some "ANALYSIS")))
        [] false (1 / 2)) "google" []).length = 16 ∧
    determineStrategy
      (planAgents "t"
        (TaskAnalysis.mk "" [] 4
          (List.replicate 16 (AgentConfig.mk (some "Expert") (some "ANALYSIS")))
          [] false (1 / 2)) "google" [])
      (TaskAnalysis.mk "" [] 4
        (List.replicate 16 (AgentConfig.mk (some "Expert") (some "ANALYSIS")))
        [] false (1 / 2)) = "sequential" ∧
    ¬ ((planAgents "t"
      (TaskAnalysis.mk "" [] 4
        (List.replicate 16 (AgentConfig.mk (some "Expert") (some "ANALYSIS")))
        [] false (1 / 2)) "google" []).length ≤ 15) := by
  have hlen : (planAgents "t"
      (TaskAnalysis.mk "" [] 4
        (List.replicate 16 (AgentConfig.mk (some "Expert") (some "ANALYSIS")))
        [] false (1 / 2)) "google" []).length = 16 := by
    rw [planAgents_length]
    simp
  refine ⟨hlen, ?_, by omega⟩
  unfold determineStrategy
  rw [hlen]
  simp

/--
C5 amended: every delegation plan has at least 4 agents — an empty
`agent_config` falls to the legacy branch, whose defaults and fill loop pad
with standard roles up to the clamped count — and the 15-agent upper bound
holds on the legacy branch (empty `agent_config`); the dynamic branch keeps
`max(|agent_config|, 4)` agents and enforces no upper bound.
-/
theorem plan_agents_team_size :
    ∀ (description : String) (analysis : TaskAnalysis) (provider : String)
      (subtasks : List String),
      4 ≤ (planAgents description analysis provider subtasks).length ∧
      (analysis.agent_config = [] →
        (planAgents description analysis provider subtasks).length ≤ 15) := by
  intro description analysis provider subtasks
  rw [planAgents_length]
  constructor
  · split
    · exact (clampAgentCount_bounds analysis.agent_count).1
    · omega
  · intro hempty
    have hb : analysis.agent_config.isEmpty = true := by simp [hempty]
    rw [if_pos hb]
    exact (clampAgentCount_bounds analysis.agent_count).2

/-- Witness for C5 (amended) at the default analysis, whose `agent_config`
is empty: the legacy branch plans between 4 and 15 agents. -/
theorem plan_agents_team_size_witness :
    4 ≤ (planAgents "t" {} "auto" []).length ∧
    (planAgents "t" {} "auto" []).length ≤ 15 :=
  ⟨(plan_agents_team_size "t" {} "auto" []).1,
    (plan_agents_team_size "t" {} "auto" []).2 rfl⟩

/--
C7: provider assignment in `_plan_agents` — when the provider hint is not
`auto`, every emitted plan carries that hint; when the hint is `auto`,
providers are assigned round-robin by plan index over
(google, anthropic, openai), so across any plan (padding included) the
multiset of planned providers is balanced within ±1.
-/
theorem plan_agents_provider_assignment :
    ∀ (description : String) (analysis : TaskAnalysis) (provider : String)
      (subtasks : List String),
      (provider ≠ "auto" →
        ∀ plan ∈ planAgents description analysis provider subtasks,
          plan.provider = provider) ∧
      (provider = "auto" →
        ∀ x ∈ cloudProviders, ∀ y ∈ cloudProviders,
          ((planAgents description analysis provider subtasks).map
              (fun pl => pl.provider)).count x
            ≤ ((planAgents description analysis provider subtasks).map
              (fun pl => pl.provider)).count y + 1) := by
  intro description analysis provider subtasks
  constructor
  · intro hne plan hmem
    have hin : plan.provider ∈
        (planAgents description analysis provider subtasks).map
          (fun pl => pl.provider) := List.mem_map_of_mem _ hmem
    rw [planAgents_providers] at hin
    simp only [if_neg hne] at hin
    obtain ⟨k, _, he⟩ := List.mem_map.mp hin
    exact he.symm
  · intro hp x hx y hy
    subst hp
    rw [planAgents_providers]
    have hfn : (fun k => if ("auto" : String) = "auto"
          then selectProviderForAgent "" k else "auto")
        = fun k => selectProviderForAgent "" k := by
      funext k
      rw [if_pos rfl]
    rw [hfn]
    have hcount : ∀ z ∈ cloudProviders, ∃ b : ℕ, b ≤ 1 ∧
        ((List.range
            (planAgents description analysis "auto" subtasks).length).map
          (fun k => selectProviderForAgent "" k)).count z
          = (planAgents description analysis "auto" subtasks).length / 3 + b := by
      intro z hz
      have hz3 : z = "google" ∨ z = "anthropic" ∨ z = "openai" := by
        simpa [cloudProviders] using hz
      rcases hz3 with hz3 | hz3 | hz3 <;> subst hz3
      · exact ⟨_, by split_ifs <;> omega,
          count_rr_provider _ _ 0 (by norm_num) rfl⟩
      · exact ⟨_, by split_ifs <;> omega,
          count_rr_provider _ _ 1 (by norm_num) rfl⟩
      · exact ⟨_, by split_ifs <;> omega,
          count_rr_provider _ _ 2 (by norm_num) rfl⟩
    obtain ⟨bx, hbx, hxeq⟩ := hcount x hx
    obtain ⟨by2, hby, hyeq⟩ := hcount y hy
    rw [hxeq, hyeq]
    omega

/-- Witness for C7: with the concrete hint `anthropic` the first planned
agent carries that provider, and with the `auto` hint the round-robin counts
of google and anthropic providers differ by at most one. -/
theorem plan_agents_provider_assignment_witness :
    (AgentPlan.mk "researcher" "Researcher"
      "Conducts web research and information gathering using search tools"
      "t" "anthropic" 0 "research").provider = "anthropic" ∧
    ((planAgents "t" {} "auto" []).map (fun pl => pl.provider)).count "google"
      ≤ ((planAgents "t" {} "auto" []).map
          (fun pl => pl.provider)).count "anthropic" + 1 := by
  constructor
  · exact (plan_agents_provider_assignment "t" {} "anthropic" []).1
      (by decide)
      (AgentPlan.mk "researcher" "Researcher"
        "Conducts web research and information gathering using search tools"
        "t" "anthropic" 0 "research")
      (by decide)
  · exact (plan_agents_provider_assignment "t" {} "auto" []).2 rfl
      "google" (by decide) "anthropic" (by decide)

end Swarm
